import Mathlib

/-!
Verification development for a small synchronous state-container library
(store engine, reducer combinator, middleware pipeline).  The JavaScript
sources are shallowly embedded: JS values relevant to action validation are
modelled by `JSVal` (with prototype chains as lists of object identities),
mutable listener arrays are modelled by an explicit heap of arrays indexed by
identity, exceptions are modelled with `Except`/`Option`, and the private
control action types (which carry a random suffix at module initialisation in
the source) are modelled as fixed distinguished strings, since no property
below depends on their concrete spelling.
-/

set_option autoImplicit false

namespace Redux

/-- Model of a JavaScript value, as far as the dispatch validation path needs
it.  An `obj` carries its prototype chain as the list of identities of the
prototype objects from the immediate prototype down to the last prototype
before `null`, plus its own (string-keyed) fields.  Functions and symbols
carry an identity so distinct ones are distinguishable. -/
inductive JSVal where
  | undefined
  | null
  | bool (b : Bool)
  | num (n : Int)
  | str (s : String)
  | fn (id : Nat)
  | sym (id : Nat)
  | obj (protoChain : List Nat) (fields : List (String × JSVal))

/-- The JS `typeof` operator on the modelled values (`typeof null` is
`"object"`). -/
def jsTypeof : JSVal → String
  | .undefined => "undefined"
  | .null => "object"
  | .bool _ => "boolean"
  | .num _ => "number"
  | .str _ => "string"
  | .fn _ => "function"
  | .sym _ => "symbol"
  | .obj _ _ => "object"

/-- Own-field lookup on an object's field list (first match wins).  A missing
field reads as `undefined`, like JS property access on a plain object whose
prototype does not carry the key. -/
def lookupField : List (String × JSVal) → String → JSVal
  | [], _ => .undefined
  | (k, v) :: rest, key => if k = key then v else lookupField rest key

/-- Property access `v.key`.  `dispatch` only reads `action.type` after the
plain-object check has passed, so only the `obj` case is ever exercised by the
embedded code; all other cases read as `undefined`. -/
def getField (v : JSVal) (key : String) : JSVal :=
  match v with
  | .obj _ fields => lookupField fields key
  | _ => .undefined

/-- Is the value the JS `undefined`?  (`typeof x === 'undefined'`.) -/
def JSVal.isUndefined : JSVal → Bool
  | .undefined => true
  | _ => false

/-- The `while (Object.getPrototypeOf(proto) !== null) proto = ...` loop from
`isPlainObject`: starting at the first prototype, walk to the last prototype
on the chain (the terminal non-null prototype). -/
def protoWalk (p : Nat) : List Nat → Nat
  | [] => p
  | q :: rest => protoWalk q rest

/-- Embedding of `isPlainObject(obj)`: reject anything whose `typeof` is not
`'object'` and reject `null`; otherwise walk the prototype chain to its
terminal non-null prototype and compare it (by identity) with the object's
immediate prototype.  An object with a `null` immediate prototype fails the
final comparison (`null === proto` is false there). -/
def isPlainObject (v : JSVal) : Bool :=
  match v with
  | .obj protoChain _ =>
    match protoChain with
    | [] => false
    | p :: rest => p == protoWalk p rest
  | _ => false

/-- Conventional identity for `Object.prototype` in examples: a plain object
literal is modelled as `.obj [objectProtoId] fields`. -/
def objectProtoId : Nat := 0

/-- which malformed-construction error (the spec's `ConfigurationError`). -/
inductive ConfigKind where
  | actionNotPlainObject
  | actionTypeUndefined
  | multipleEnhancers
  | enhancerNotFunction
  | reducerNotFunction
  | listenerNotFunction
  deriving DecidableEq, Repr

/-- which forbidden-time error (the spec's `InvariantViolation`). -/
inductive InvKind where
  | nestedDispatch
  | getStateDuringDispatch
  | subscribeDuringDispatch
  | unsubscribeDuringDispatch
  deriving DecidableEq, Repr

/-- Synchronous errors surfaced by the engine and the reducer combinator.
`thrown` models an arbitrary application-level exception escaping a reducer
(identified by a numeric code); `shapeInit`/`shapeProbe` are the deferred
shape-validation errors (the spec's `ShapeError`), `stateUndefined` the live
dispatch error (the spec's `StateError`), each naming the offending key. -/
inductive Err where
  | configuration (k : ConfigKind)
  | invariant (k : InvKind)
  | thrown (code : Nat)
  | shapeInit (key : String)
  | shapeProbe (key : String)
  | stateUndefined (key : String)
  deriving DecidableEq, Repr

/-- Classifier: is this one of the `ConfigurationError`s? -/
def Err.isConfigurationError : Err → Bool
  | .configuration _ => true
  | _ => false

/-- Classifier: is this one of the `InvariantViolation`s? -/
def Err.isInvariantViolation : Err → Bool
  | .invariant _ => true
  | _ => false

/-- Classifier: is this a deferred shape-validation error (`ShapeError`)? -/
def Err.isShapeError : Err → Bool
  | .shapeInit _ => true
  | .shapeProbe _ => true
  | _ => false

/-- The private control action types.  In the source each carries a random
suffix generated at module initialisation; the suffix plays no role in any
verified property, so they are modelled as fixed distinguished strings.
`PROBE_UNKNOWN_ACTION` is a factory producing a fresh random type per call in
the source; it is likewise modelled by one fixed string. -/
def ActionTypes.INIT : String := "@@redux/INIT"

/-- The control action type dispatched by `replaceReducer`. -/
def ActionTypes.REPLACE : String := "@@redux/REPLACE"

/-- The randomly generated probe action type used by `assertReducerShape`. -/
def ActionTypes.PROBE_UNKNOWN_ACTION : String := "@@redux/PROBE_UNKNOWN_ACTION"

/-- A plain-object action `{ type: t }` (immediate prototype
`Object.prototype`, so it passes `isPlainObject`). -/
def mkAction (t : String) : JSVal :=
  .obj [objectProtoId] [("type", .str t)]

/-- An action accepted by `dispatch`'s validation: a plain object whose
`type` field is not `undefined`. -/
def validAction (a : JSVal) : Prop :=
  isPlainObject a = true ∧ (getField a "type").isUndefined = false

instance (a : JSVal) : Decidable (validAction a) := by
  unfold validAction
  infer_instance

/-! ## Listener machinery

A listener registered with `subscribe` is a zero-argument callback; during the
notification loop it may itself call `subscribe` or an `unsubscribe` closure
(`isDispatching` is false by then, so those guards do not fire).  A callback's
behaviour is modelled by a small syntax: do nothing, subscribe a further
listener, or run an unsubscribe closure for the listener with a given
identity.  An unsubscribe closure whose `isSubscribed` flag is already false
returns early in the source, i.e. behaves as `noop`, so the syntax covers
that case too.  Function identity (what `indexOf` compares) is the `id`. -/

/-- A subscribed callback, identified by `id`, together with what it does
when invoked. -/
inductive Listener where
  | noop (id : Nat)
  | subscriber (id : Nat) (newcomer : Listener)
  | unsubscriber (id : Nat) (target : Nat)
  deriving DecidableEq, Repr

/-- The identity of the callback (JS function identity). -/
def Listener.id : Listener → Nat
  | .noop i => i
  | .subscriber i _ => i
  | .unsubscriber i _ => i

/-- JS `Array.prototype.indexOf` by listener identity: first index holding
the target, `-1` when absent. -/
def jsIndexOfIdFrom : List Listener → Nat → Nat → Int
  | [], _, _ => -1
  | l :: rest, target, i =>
    if l.id = target then (i : Int) else jsIndexOfIdFrom rest target (i + 1)

/-- `listeners.indexOf(listener)` on the modelled array. -/
def jsIndexOfId (xs : List Listener) (target : Nat) : Int :=
  jsIndexOfIdFrom xs target 0

/-- JS `arr.splice(idx, 1)`: a negative index counts from the end (clamped at
0), an index at or past the length removes nothing. -/
def jsSpliceRemoveOne {α : Type} (xs : List α) (idx : Int) : List α :=
  let len : Int := xs.length
  let start : Nat := (if idx < 0 then max (len + idx) 0 else min idx len).toNat
  xs.take start ++ xs.drop (start + 1)

/-- The listener-related state of the store engine.  JS arrays have identity;
they are modelled by a heap of arrays indexed by allocation order, so that
`===` on arrays is equality of indices.  `currentListeners` may be `null`
(`none`); `nextListeners` always refers to an allocated array. -/
structure LState where
  heap : List (List Listener)
  currentListeners : Option Nat
  nextListeners : Nat
  deriving DecidableEq, Repr

/-- Read the array with identity `i` (the engine only dereferences live
identities; a dangling read yields `[]`). -/
def getArr (h : List (List Listener)) (i : Nat) : List Listener :=
  h.getD i []

/-- Overwrite the array with identity `i` (models in-place mutation). -/
def setArr (h : List (List Listener)) (i : Nat) (a : List Listener) :
    List (List Listener) :=
  h.set i a

/-- Embedding of `ensureCanMutateNextListeners`: when `nextListeners` and
`currentListeners` are the same array, replace `nextListeners` with a shallow
copy (a freshly allocated array with the same contents). -/
def ensureCanMutateNextListeners (s : LState) : LState :=
  if s.currentListeners = some s.nextListeners then
    { s with
      heap := s.heap ++ [getArr s.heap s.nextListeners]
      nextListeners := s.heap.length }
  else s

/-- The mutating body of `subscribe` (the guards, which cannot fire during
the notification loop, are in the store-level operations): copy-on-write,
then push the listener onto `nextListeners`. -/
def subscribeListener (l : Listener) (s : LState) : LState :=
  let s := ensureCanMutateNextListeners s
  { s with
    heap := setArr s.heap s.nextListeners (getArr s.heap s.nextListeners ++ [l]) }

/-- The mutating body of an `unsubscribe` closure (for a closure whose
`isSubscribed` flag is still true): copy-on-write, splice the listener out of
`nextListeners` by `indexOf`, and invalidate `currentListeners`. -/
def unsubscribeListener (target : Nat) (s : LState) : LState :=
  let s := ensureCanMutateNextListeners s
  let arr := getArr s.heap s.nextListeners
  { s with
    heap := setArr s.heap s.nextListeners (jsSpliceRemoveOne arr (jsIndexOfId arr target))
    currentListeners := none }

/-- Invoke one listener callback: perform whatever subscribe/unsubscribe
calls its body makes. -/
def applyListener (l : Listener) (s : LState) : LState :=
  match l with
  | .noop _ => s
  | .subscriber _ newcomer => subscribeListener newcomer s
  | .unsubscriber _ target => unsubscribeListener target s

/-- The notification loop of `dispatch`: `for (let i = 0; i < listeners.length;
i++) listeners[i]()`, where `listeners` is the array object with identity
`snapId` (its length is re-read from the heap on every iteration, as in the
source).  The fuel bounds the iteration count for termination; the theorems
below show the snapshot array never changes during the loop, so fuel equal to
its initial length is exact.  The invoked listeners are recorded in order. -/
def notifyLoop : Nat → LState → Nat → Nat → List Nat → LState × List Nat
  | 0, s, _, _, acc => (s, acc)
  | fuel + 1, s, snapId, i, acc =>
    let arr := getArr s.heap snapId
    if h : i < arr.length then
      let l := arr.get ⟨i, h⟩
      notifyLoop fuel (applyListener l s) snapId (i + 1) (acc ++ [l.id])
    else (s, acc)

/-- The notification phase at the end of `dispatch`:
`const listeners = (currentListeners = nextListeners)` followed by the
indexed loop over `listeners`.  Returns the resulting listener state and the
identities invoked, in order. -/
def notifyPhase (ls : LState) : LState × List Nat :=
  let snapId := ls.nextListeners
  let ls1 := { ls with currentListeners := some snapId }
  notifyLoop (getArr ls1.heap snapId).length ls1 snapId 0 []

/-! ## Store engine

The root reducer is modelled by `ReducerBody`: a pure (possibly throwing)
transition function, or a reducer that re-enters the store by calling
`getState` or `dispatch` from inside its own execution (the behaviours the
reentrancy claims are about).  Thrown application-level exceptions are
numeric codes. -/

/-- The root reducer given to `createStore`.  `pure f` is an ordinary reducer
(whose body may itself throw, modelled by `Except`); `callsGetState f` first
calls `store.getState()` and, were that to succeed, would continue as `f`
applied to its result; `callsDispatch a` first calls `store.dispatch(a)`. -/
inductive ReducerBody (σ : Type) where
  | pure (f : σ → JSVal → Except Nat σ)
  | callsGetState (f : σ → σ → JSVal → Except Nat σ)
  | callsDispatch (a : JSVal)

/-- The mutable state owned by one store: `currentReducer`, `currentState`,
the listener arrays, and the `isDispatching` flag. -/
structure Store (σ : Type) where
  currentReducer : ReducerBody σ
  currentState : σ
  lstate : LState
  isDispatching : Bool

/-- Embedding of `getState`: throws `InvariantViolation` while the reducer is
executing, otherwise returns `currentState`. -/
def getState {σ : Type} (st : Store σ) : Except Err σ :=
  if st.isDispatching then .error (.invariant .getStateDuringDispatch)
  else .ok st.currentState

/-- The validation prefix of `dispatch`, in source order: reject a non-plain
action (`ConfigurationError`), then an action whose `type` is `undefined`
(`ConfigurationError`), then a call made while already dispatching
(`InvariantViolation`). -/
def dispatchPrecheck {σ : Type} (st : Store σ) (action : JSVal) : Option Err :=
  if isPlainObject action = false then
    some (.configuration .actionNotPlainObject)
  else if (getField action "type").isUndefined then
    some (.configuration .actionTypeUndefined)
  else if st.isDispatching then
    some (.invariant .nestedDispatch)
  else none

/-- Run the reducer body against the store as it stands during the dispatch
(`mid` has `isDispatching = true`).  A reducer that calls `getState` receives
that call's `InvariantViolation`, which escapes the reducer; one that calls
`dispatch` hits the nested dispatch's validation prefix, which (because
`mid.isDispatching` is true) always produces an error before the reducer
could be re-entered, so the fallback arm of that match is unreachable. -/
def runReducerBody {σ : Type} (body : ReducerBody σ) (mid : Store σ)
    (s : σ) (action : JSVal) : Except Err σ :=
  match body with
  | .pure f =>
    match f s action with
    | .error code => .error (.thrown code)
    | .ok s2 => .ok s2
  | .callsGetState f =>
    match getState mid with
    | .error e => .error e
    | .ok v =>
      match f v s action with
      | .error code => .error (.thrown code)
      | .ok s2 => .ok s2
  | .callsDispatch a =>
    match dispatchPrecheck mid a with
    | some e => .error e
    | none => .error (.invariant .nestedDispatch)

/-- Embedding of `dispatch`: the validation prefix; then
`try { isDispatching = true; currentState = currentReducer(currentState,
action) } finally { isDispatching = false }` — on a throw the exception
propagates with the state cell untouched and the flag reset; on success the
listener snapshot is taken and every listener in it invoked by index; the
action is returned. -/
def dispatch {σ : Type} (st : Store σ) (action : JSVal) :
    Store σ × Except Err JSVal :=
  match dispatchPrecheck st action with
  | some e => (st, .error e)
  | none =>
    match runReducerBody st.currentReducer { st with isDispatching := true }
        st.currentState action with
    | .error e => ({ st with isDispatching := false }, .error e)
    | .ok nextS =>
      let st1 := { st with currentState := nextS, isDispatching := false }
      let notified := notifyPhase st1.lstate
      ({ st1 with lstate := notified.1 }, .ok action)

/-- The `{ type: ActionTypes.INIT }` control action self-dispatched on
construction. -/
def initAction : JSVal := mkAction ActionTypes.INIT

/-- The store as assembled by `createStore` (no-enhancer path) just before
the `INIT` self-dispatch: `currentState = preloadedState`,
`currentListeners = []` with `nextListeners` aliasing the same array,
`isDispatching = false`. -/
def initialStore {σ : Type} (reducer : ReducerBody σ) (preloadedState : σ) :
    Store σ :=
  { currentReducer := reducer
    currentState := preloadedState
    lstate := { heap := [[]], currentListeners := some 0, nextListeners := 0 }
    isDispatching := false }

/-- Embedding of `createStore(reducer, preloadedState)` without an enhancer
(the reducer argument is a function by typing): build the initial store and
self-dispatch `INIT`.  The second component is that dispatch's outcome. -/
def createStore {σ : Type} (reducer : ReducerBody σ) (preloadedState : σ) :
    Store σ × Except Err JSVal :=
  dispatch (initialStore reducer preloadedState) initAction

/-- An ordinary total reducer (never throws). -/
def pureReducer {σ : Type} (f : σ → JSVal → σ) : ReducerBody σ :=
  .pure (fun s a => .ok (f s a))

/-- Dispatch a sequence of actions in order, keeping the store state. -/
def dispatchAll {σ : Type} (st : Store σ) (actions : List JSVal) : Store σ :=
  actions.foldl (fun s a => (dispatch s a).1) st

/-! ## createStore argument validation

The prelude of `createStore(reducer, preloadedState, enhancer)` (with the
hidden fourth `arguments[3]`), down to where either construction fails, is
delegated to the enhancer, or proceeds normally.  Arguments are JS values
here because only their `typeof` matters. -/

/-- Outcome of the argument prelude of `createStore`. -/
inductive CreateStoreArgsResult where
  | failed (e : Err)
  | delegated (enhancer : JSVal) (preloadedState : JSVal)
  | proceed (preloadedState : JSVal)

/-- Embedding of `createStore`'s argument handling: the multiple-enhancer
check `(typeof preloadedState === 'function' && typeof enhancer ===
'function') || (typeof enhancer === 'function' && typeof arguments[3] ===
'function')`; the parameter shift when `preloadedState` is a function and
`enhancer` is `undefined`; the enhancer-must-be-a-function check and
delegation `enhancer(createStore)(reducer, preloadedState)`; and the
reducer-must-be-a-function check. -/
def createStoreArgs (reducer preloadedState enhancer arg3 : JSVal) :
    CreateStoreArgsResult :=
  if (jsTypeof preloadedState == "function" && jsTypeof enhancer == "function")
      || (jsTypeof enhancer == "function" && jsTypeof arg3 == "function") then
    .failed (.configuration .multipleEnhancers)
  else
    let shifted :=
      if jsTypeof preloadedState == "function"
          && jsTypeof enhancer == "undefined" then
        (JSVal.undefined, preloadedState)
      else (preloadedState, enhancer)
    if jsTypeof shifted.2 != "undefined" then
      if jsTypeof shifted.2 != "function" then
        .failed (.configuration .enhancerNotFunction)
      else .delegated shifted.2 shifted.1
    else if jsTypeof reducer != "function" then
      .failed (.configuration .reducerNotFunction)
    else .proceed shifted.1

/-! ## Reducer combinator

Slice values live in an arbitrary type `V` whose equality models JS reference
identity (`!==` between a previous and next slice value is modelled by `≠`).
`undefined` slice values are `none`; composite states are association lists
from slice key to defined slice value, so `state[key]` is `sliceGet`.  The
development-only warning paths (`getUnexpectedStateShapeWarningMessage`, the
missing-reducer warning) are non-fatal side channels that never change the
returned state and are elided, i.e. the production build is embedded. -/

/-- A sub-reducer over a slice: `undefined` in and out is `none`. -/
def SubReducer (V : Type) := Option V → JSVal → Option V

/-- `state[key]` on a composite state: the first binding for `key`, or
`undefined` when absent. -/
def sliceGet {V : Type} : List (String × V) → String → Option V
  | [], _ => none
  | (k, v) :: rest, key => if k = key then some v else sliceGet rest key

/-- Embedding of `assertReducerShape`: probe each reducer, in order, with
`(undefined, { type: ActionTypes.INIT })` and then with `(undefined, { type:
ActionTypes.PROBE_UNKNOWN_ACTION() })`; the first `undefined` result throws,
which escapes the `forEach` — so the result is the first failure, or none. -/
def assertReducerShape {V : Type} :
    List (String × SubReducer V) → Option Err
  | [] => none
  | (key, reducer) :: rest =>
    if (reducer none (mkAction ActionTypes.INIT)).isNone then
      some (.shapeInit key)
    else if (reducer none (mkAction ActionTypes.PROBE_UNKNOWN_ACTION)).isNone then
      some (.shapeProbe key)
    else assertReducerShape rest

/-- The main loop of `combination`: for each key of `finalReducers`, read
`previousStateForKey = state[key]`, run the sub-reducer, throw `StateError`
naming the key when the result is `undefined`, append the result to
`nextState`, and accumulate `hasChanged` by reference inequality. -/
def combinationLoop {V : Type} [DecidableEq V]
    (rs : List (String × SubReducer V)) (state : List (String × V))
    (action : JSVal) (hasChanged : Bool) (nextState : List (String × V)) :
    Except Err (Bool × List (String × V)) :=
  match rs with
  | [] => .ok (hasChanged, nextState)
  | (key, reducer) :: rest =>
    let previousStateForKey := sliceGet state key
    match reducer previousStateForKey action with
    | none => .error (.stateUndefined key)
    | some nextStateForKey =>
      combinationLoop rest state action
        (hasChanged || decide (some nextStateForKey ≠ previousStateForKey))
        (nextState ++ [(key, nextStateForKey)])

/-- Embedding of the returned `combination(state, action)` closure: re-raise
the deferred shape-assertion error if one was captured; otherwise run the
loop and return the freshly built `nextState` when `hasChanged`, else the
original `state` reference. -/
def combination {V : Type} [DecidableEq V] (shapeAssertionError : Option Err)
    (finalReducers : List (String × SubReducer V))
    (state : List (String × V)) (action : JSVal) :
    Except Err (List (String × V)) :=
  match shapeAssertionError with
  | some e => .error e
  | none =>
    match combinationLoop finalReducers state action false [] with
    | .error e => .error e
    | .ok r => .ok (if r.1 then r.2 else state)

/-- The filtering prelude of `combineReducers`: keep exactly the keys whose
value is a function (`none` models any non-function entry, such as the
`undefined` values the development build warns about). -/
def filterFinalReducers {V : Type}
    (reducers : List (String × Option (SubReducer V))) :
    List (String × SubReducer V) :=
  reducers.filterMap (fun kv => kv.2.map (fun r => (kv.1, r)))

/-- Embedding of `combineReducers`: filter to `finalReducers`, run
`assertReducerShape` inside `try { ... } catch (e) { shapeAssertionError =
e }` — capturing rather than throwing, so construction always returns the
`combination` closure — and hand the captured error to `combination`. -/
def combineReducers {V : Type} [DecidableEq V]
    (reducers : List (String × Option (SubReducer V))) :
    List (String × V) → JSVal → Except Err (List (String × V)) :=
  let finalReducers := filterFinalReducers reducers
  let shapeAssertionError := assertReducerShape finalReducers
  fun state action => combination shapeAssertionError finalReducers state action

/-- The `hasChanged` flag computed by the loop of `combination` (exposed so
the referential-equality theorems can speak about which branch of
`hasChanged ? nextState : state` is taken). -/
def combinationHasChanged {V : Type} [DecidableEq V]
    (rs : List (String × SubReducer V)) (state : List (String × V))
    (action : JSVal) : Except Err Bool :=
  (combinationLoop rs state action false []).map Prod.fst

/-- The first key, in mapping order, whose sub-reducer returns `undefined`
on the given state and action (the key the loop's `StateError` names). -/
def firstUndefinedKey {V : Type} :
    List (String × SubReducer V) → List (String × V) → JSVal → Option String
  | [], _, _ => none
  | (key, reducer) :: rest, state, action =>
    if (reducer (sliceGet state key) action).isNone then some key
    else firstUndefinedKey rest state action

/-- The composite object freshly built by one run of the loop: one binding
per mapping key whose reducer result is defined, in mapping order. -/
def freshComposite {V : Type} (rs : List (String × SubReducer V))
    (state : List (String × V)) (action : JSVal) : List (String × V) :=
  rs.filterMap (fun kr => (kr.2 (sliceGet state kr.1) action).map (fun v => (kr.1, v)))

/-! ## Function pipe and middleware pipeline -/

/-- Embedding of `compose(...funcs)`: zero functions give the identity, one
gives that function, otherwise `funcs.reduce((a, b) => (...args) =>
a(b(...args)))` — a left fold over the tail seeded with the head.  The
middleware chain composes unary functions, so one element type suffices. -/
def compose {τ : Type} (funcs : List (τ → τ)) : τ → τ :=
  match funcs with
  | [] => fun arg => arg
  | [f] => f
  | f :: rest => rest.foldl (fun a b => fun args => a (b args)) f

/-- The dispatch-building core of `applyMiddleware`: apply every middleware
factory to the `middlewareAPI`, compose the resulting chain right-to-left,
and terminate it with the underlying store's dispatch.  The API is abstract
here (the ordering claims do not involve `getState` or the late-bound
`dispatch` reference inside it). -/
def applyMiddlewareChain {α δ : Type} (middlewareAPI : α)
    (middlewares : List (α → δ → δ)) (storeDispatch : δ) : δ :=
  let chain := middlewares.map (fun middleware => middleware middlewareAPI)
  compose chain storeDispatch

/-- A pass-through middleware that appends its tag to the shared `order` log
and then calls `next` — the shape used by the ordering property, over
dispatch functions that thread the log. -/
def tagMiddleware {α : Type} (t : String) :
    α → (List String → List String) → (List String → List String) :=
  fun _ next => fun order => next (order ++ [t])

/-! ## Heap lemmas for the listener arrays -/

theorem getArr_append_lt (h : List (List Listener)) (x : List Listener)
    (i : Nat) (hi : i < h.length) : getArr (h ++ [x]) i = getArr h i := by
  induction h generalizing i with
  | nil => exact absurd hi (Nat.not_lt_zero i)
  | cons a t ih =>
    cases i with
    | zero => rfl
    | succ j =>
      simpa [getArr] using ih j (Nat.lt_of_succ_lt_succ hi)

theorem getArr_setArr_ne (h : List (List Listener)) (j i : Nat)
    (a : List Listener) (hne : i ≠ j) : getArr (setArr h j a) i = getArr h i := by
  induction h generalizing i j with
  | nil => rfl
  | cons b t ih =>
    cases j with
    | zero =>
      cases i with
      | zero => exact absurd rfl hne
      | succ k => simp [getArr, setArr]
    | succ j2 =>
      cases i with
      | zero => simp [getArr, setArr]
      | succ k =>
        simpa [getArr, setArr] using ih j2 k (by omega)

/-- The in-flight snapshot array `snapId` is intact in listener state `s`:
it still holds `snap`, it is a live identity, and whenever `nextListeners`
still aliases it, `currentListeners` does too (so copy-on-write will fire
before any mutation reaches it). -/
def snapIntact (snap : List Listener) (snapId : Nat) (s : LState) : Prop :=
  getArr s.heap snapId = snap ∧ snapId < s.heap.length ∧
    (s.nextListeners = snapId → s.currentListeners = some snapId)

theorem ensure_intact {snap : List Listener} {snapId : Nat} {s : LState}
    (hs : snapIntact snap snapId s) :
    snapIntact snap snapId (ensureCanMutateNextListeners s) ∧
    (ensureCanMutateNextListeners s).nextListeners ≠ snapId := by
  obtain ⟨h1, h2, h3⟩ := hs
  unfold ensureCanMutateNextListeners
  by_cases hc : s.currentListeners = some s.nextListeners
  · rw [if_pos hc]
    refine ⟨⟨?_, ?_, ?_⟩, ?_⟩
    · simpa using (getArr_append_lt s.heap _ snapId h2).trans h1
    · simpa using Nat.lt_succ_of_lt h2
    · intro hnext
      exact absurd hnext (by simpa using Nat.ne_of_gt h2)
    · simpa using Nat.ne_of_gt h2
  · rw [if_neg hc]
    refine ⟨⟨h1, h2, h3⟩, ?_⟩
    intro hnext
    exact hc (by rw [hnext, h3 hnext])

theorem applyListener_intact {snap : List Listener} {snapId : Nat}
    {s : LState} (l : Listener) (hs : snapIntact snap snapId s) :
    snapIntact snap snapId (applyListener l s) := by
  obtain ⟨h1, h2, h3⟩ := hs
  cases l with
  | noop _ => exact ⟨h1, h2, h3⟩
  | subscriber _ newcomer =>
    obtain ⟨⟨g1, g2, g3⟩, gne⟩ := @ensure_intact snap snapId _ ⟨h1, h2, h3⟩
    unfold applyListener subscribeListener
    refine ⟨?_, ?_, ?_⟩
    · simpa [setArr] using
        (getArr_setArr_ne _ _ snapId _ (Ne.symm (Ne.symm gne).symm)).trans g1
    · simpa [setArr] using g2
    · intro hnext
      exact absurd hnext gne
  | unsubscriber _ target =>
    obtain ⟨⟨g1, g2, g3⟩, gne⟩ := @ensure_intact snap snapId _ ⟨h1, h2, h3⟩
    unfold applyListener unsubscribeListener
    refine ⟨?_, ?_, ?_⟩
    · simpa [setArr] using
        (getArr_setArr_ne _ _ snapId _ (Ne.symm (Ne.symm gne).symm)).trans g1
    · simpa [setArr] using g2
    · intro hnext
      exact absurd hnext gne

theorem notifyLoop_trace (snap : List Listener) (snapId : Nat) :
    ∀ (n : Nat) (s : LState) (i : Nat) (acc : List Nat),
      snapIntact snap snapId s → i + n = snap.length →
      (notifyLoop n s snapId i acc).2 = acc ++ (snap.drop i).map Listener.id := by
  intro n
  induction n with
  | zero =>
    intro s i acc hs hlen
    have hi : i = snap.length := by omega
    subst hi
    simp [notifyLoop]
  | succ m ih =>
    intro s i acc hs hlen
    have harr : getArr s.heap snapId = snap := hs.1
    subst harr
    have hi : i < (getArr s.heap snapId).length := by omega
    have hstep : notifyLoop (m + 1) s snapId i acc
        = notifyLoop m (applyListener ((getArr s.heap snapId).get ⟨i, hi⟩) s)
            snapId (i + 1) (acc ++ [((getArr s.heap snapId).get ⟨i, hi⟩).id]) := by
      simp only [notifyLoop]
      rw [dif_pos hi]
    rw [hstep,
      ih (applyListener ((getArr s.heap snapId).get ⟨i, hi⟩) s) (i + 1) _
        (applyListener_intact _ hs) (by omega)]
    rw [List.append_assoc]
    congr 1
    have hdrop : (getArr s.heap snapId).get ⟨i, hi⟩
        :: (getArr s.heap snapId).drop (i + 1) = (getArr s.heap snapId).drop i :=
      List.getElem_cons_drop _ i hi
    calc [((getArr s.heap snapId).get ⟨i, hi⟩).id]
          ++ ((getArr s.heap snapId).drop (i + 1)).map Listener.id
        = ((getArr s.heap snapId).get ⟨i, hi⟩
            :: (getArr s.heap snapId).drop (i + 1)).map Listener.id := rfl
      _ = ((getArr s.heap snapId).drop i).map Listener.id := by rw [hdrop]

/-! ## Engine lemmas -/

theorem dispatchPrecheck_valid {σ : Type} (st : Store σ) (a : JSVal)
    (hflag : st.isDispatching = false) (ha : validAction a) :
    dispatchPrecheck st a = none := by
  obtain ⟨h1, h2⟩ := ha
  unfold dispatchPrecheck
  simp [h1, h2, hflag]

theorem dispatch_pure_ok {σ : Type} (st : Store σ) (f : σ → JSVal → σ)
    (a : JSVal) (hflag : st.isDispatching = false)
    (hred : st.currentReducer = pureReducer f) (ha : validAction a) :
    (dispatch st a).1.currentState = f st.currentState a ∧
    (dispatch st a).1.isDispatching = false ∧
    (dispatch st a).1.currentReducer = st.currentReducer := by
  unfold dispatch
  rw [dispatchPrecheck_valid st a hflag ha, hred]
  simp [runReducerBody, pureReducer]

theorem dispatchAll_pure {σ : Type} (f : σ → JSVal → σ) (actions : List JSVal) :
    ∀ (st : Store σ), st.isDispatching = false →
      st.currentReducer = pureReducer f → (∀ a ∈ actions, validAction a) →
      (dispatchAll st actions).currentState = actions.foldl f st.currentState ∧
      (dispatchAll st actions).isDispatching = false := by
  induction actions with
  | nil =>
    intro st hflag _ _
    exact ⟨rfl, hflag⟩
  | cons a rest ih =>
    intro st hflag hred hv
    have hstep := dispatch_pure_ok st f a hflag hred
      (hv a (List.mem_cons_self a rest))
    have hall : dispatchAll st (a :: rest) = dispatchAll (dispatch st a).1 rest := rfl
    rw [hall]
    have := ih (dispatch st a).1 hstep.2.1 (hstep.2.2.trans hred)
      (fun x hx => hv x (List.mem_cons_of_mem a hx))
    rw [this.1, hstep.1]
    exact ⟨rfl, this.2⟩

theorem store_flag_false_eta {σ : Type} (st : Store σ)
    (h : st.isDispatching = false) : { st with isDispatching := false } = st := by
  cases st
  simp_all

/-! ## Combinator lemmas -/

theorem combinationLoop_first_undefined {V : Type} [DecidableEq V]
    (state : List (String × V)) (action : JSVal) :
    ∀ (rs : List (String × SubReducer V)) (k : String) (hc : Bool)
      (acc : List (String × V)),
      firstUndefinedKey rs state action = some k →
      combinationLoop rs state action hc acc = .error (.stateUndefined k) := by
  intro rs
  induction rs with
  | nil => intro k hc acc h; exact absurd h (by simp [firstUndefinedKey])
  | cons kr rest ih =>
    intro k hc acc h
    obtain ⟨key, reducer⟩ := kr
    cases hr : reducer (sliceGet state key) action with
    | none =>
      have hk : k = key := by simpa [firstUndefinedKey, hr] using h.symm
      subst hk
      simp [combinationLoop, hr]
    | some v =>
      have hrest : firstUndefinedKey rest state action = some k := by
        simpa [firstUndefinedKey, hr] using h
      simp only [combinationLoop, hr]
      exact ih k _ _ hrest

theorem combinationLoop_all_defined {V : Type} [DecidableEq V]
    (state : List (String × V)) (action : JSVal) :
    ∀ (rs : List (String × SubReducer V)) (hc : Bool) (acc : List (String × V)),
      (∀ kr ∈ rs, (kr.2 (sliceGet state kr.1) action).isSome) →
      combinationLoop rs state action hc acc
        = .ok (hc || rs.any
              (fun kr => decide (kr.2 (sliceGet state kr.1) action ≠ sliceGet state kr.1)),
            acc ++ freshComposite rs state action) := by
  intro rs
  induction rs with
  | nil =>
    intro hc acc _
    simp [combinationLoop, freshComposite]
  | cons kr rest ih =>
    intro hc acc hall
    obtain ⟨key, reducer⟩ := kr
    have hhead := hall (key, reducer) (List.mem_cons_self _ rest)
    obtain ⟨v, hv0⟩ := Option.isSome_iff_exists.mp hhead
    have hv : reducer (sliceGet state key) action = some v := hv0
    have hfresh : freshComposite ((key, reducer) :: rest) state action
        = (key, v) :: freshComposite rest state action := by
      simp [freshComposite, hv]
    simp only [combinationLoop, hv]
    rw [ih _ _ (fun x hx => hall x (List.mem_cons_of_mem _ hx))]
    simp only [List.any_cons, hfresh]
    simp [hv, Bool.or_assoc]

theorem freshComposite_keys {V : Type} (state : List (String × V))
    (action : JSVal) :
    ∀ (rs : List (String × SubReducer V)),
      (∀ kr ∈ rs, (kr.2 (sliceGet state kr.1) action).isSome) →
      (freshComposite rs state action).map Prod.fst = rs.map Prod.fst := by
  intro rs
  induction rs with
  | nil => intro _; rfl
  | cons kr rest ih =>
    intro hall
    obtain ⟨v, hv⟩ := Option.isSome_iff_exists.mp
      (hall kr (List.mem_cons_self _ rest))
    have hrest := ih (fun x hx => hall x (List.mem_cons_of_mem _ hx))
    have hcons : freshComposite (kr :: rest) state action
        = (kr.1, v) :: freshComposite rest state action := by
      simp [freshComposite, hv]
    rw [hcons, List.map_cons, List.map_cons, hrest]

/-! ## Example fixtures used by the witnesses -/

/-- A small concrete store: counter state, reducer `s + 1` on every action,
fresh listener arrays, not dispatching. -/
def exampleNatStore : Store Nat :=
  initialStore (pureReducer (fun s _ => s + 1)) 0

/-- A listener state whose snapshot holds three listeners: one that
subscribes a newcomer (identity 7) during the loop, one that unsubscribes
the third listener (identity 3) before its turn, and that third listener. -/
def exampleListenerState : LState :=
  { heap := [[.subscriber 1 (.noop 7), .unsubscriber 2 3, .noop 3]]
    currentListeners := some 0
    nextListeners := 0 }

/-! ## Claims -/

/-- Claim C1: for a store created without an enhancer from
`(reducer, preloadedState)` and any sequence of valid actions dispatched
after construction, `getState()` after the last dispatch equals the reducer
folded over the actions starting from `preloadedState`, the construction-time
`INIT` self-dispatch having first replaced `preloadedState` with
`reducer(preloadedState, INIT-action)`. -/
theorem c1_state_is_reducer_fold {σ : Type} (f : σ → JSVal → σ) (p : σ)
    (actions : List JSVal) (hv : ∀ a ∈ actions, validAction a) :
    getState (dispatchAll (createStore (pureReducer f) p).1 actions)
      = .ok (actions.foldl f (f p initAction)) := by
  have hinit := dispatch_pure_ok (initialStore (pureReducer f) p) f initAction
    rfl rfl (by decide)
  have hall := dispatchAll_pure f actions (createStore (pureReducer f) p).1
    hinit.2.1 (hinit.2.2.trans rfl) hv
  have hst : (createStore (pureReducer f) p).1.currentState = f p initAction :=
    hinit.1
  simp only [getState, hall.2, if_neg]
  rw [hall.1, hst]
  simp

/-- Witness for C1 at a concrete counter store and two valid actions. -/
theorem c1_witness :
    (∀ a ∈ [mkAction "A", mkAction "B"], validAction a) ∧
    getState (dispatchAll
        (createStore (pureReducer (fun (s : Nat) _ => s + 1)) 0).1
        [mkAction "A", mkAction "B"])
      = .ok ([mkAction "A", mkAction "B"].foldl (fun (s : Nat) _ => s + 1)
          ((fun (s : Nat) _ => s + 1) 0 initAction)) :=
  ⟨by decide, c1_state_is_reducer_fold (fun (s : Nat) _ => s + 1) 0 _ (by decide)⟩

/-- Claim C2: listener snapshot isolation.  During a dispatch the listeners
invoked are exactly those in the snapshot array at notification time, in
order: a listener subscribed from within a callback during the loop (whose
identity is not in the snapshot) is not invoked in that loop, and a listener
in the snapshot is still invoked even if it is unsubscribed during the loop
before its turn. -/
theorem c2_listener_snapshot_isolation (ls : LState)
    (hlive : ls.nextListeners < ls.heap.length) :
    (notifyPhase ls).2 = (getArr ls.heap ls.nextListeners).map Listener.id ∧
    (∀ l : Listener, l.id ∉ (getArr ls.heap ls.nextListeners).map Listener.id →
      l.id ∉ (notifyPhase ls).2) ∧
    (∀ l ∈ getArr ls.heap ls.nextListeners, l.id ∈ (notifyPhase ls).2) := by
  have h0 : (notifyPhase ls).2
      = (notifyLoop (getArr ls.heap ls.nextListeners).length
          { ls with currentListeners := some ls.nextListeners }
          ls.nextListeners 0 []).2 := rfl
  have htrace : (notifyPhase ls).2
      = (getArr ls.heap ls.nextListeners).map Listener.id := by
    rw [h0, notifyLoop_trace (getArr ls.heap ls.nextListeners) ls.nextListeners
      (getArr ls.heap ls.nextListeners).length
      { ls with currentListeners := some ls.nextListeners } 0 []
      ⟨rfl, hlive, fun _ => rfl⟩ (Nat.zero_add _)]
    simp
  refine ⟨htrace, ?_, ?_⟩
  · intro l hl
    rw [htrace]
    exact hl
  · intro l hl
    rw [htrace]
    exact List.mem_map_of_mem Listener.id hl

/-- Witness for C2: a snapshot of three listeners, the first subscribing a
newcomer (identity 7) mid-loop, the second unsubscribing the third before
its turn — the invoked identities are still exactly those of the snapshot. -/
theorem c2_witness :
    exampleListenerState.nextListeners < exampleListenerState.heap.length ∧
    ((notifyPhase exampleListenerState).2
        = (getArr exampleListenerState.heap exampleListenerState.nextListeners).map
            Listener.id ∧
      (∀ l : Listener,
        l.id ∉ (getArr exampleListenerState.heap
            exampleListenerState.nextListeners).map Listener.id →
        l.id ∉ (notifyPhase exampleListenerState).2) ∧
      (∀ l ∈ getArr exampleListenerState.heap exampleListenerState.nextListeners,
        l.id ∈ (notifyPhase exampleListenerState).2)) ∧
    (notifyPhase exampleListenerState).2 = [1, 2, 3] :=
  ⟨by decide, c2_listener_snapshot_isolation exampleListenerState (by decide),
    by decide⟩

/-- Claim C3: dispatching a value that is not a plain structural record fails
with a `ConfigurationError`, and dispatching a plain record whose `type`
field is `undefined` also fails with a `ConfigurationError`; in both cases
the store is left unchanged. -/
theorem c3_dispatch_rejects_invalid_actions {σ : Type} (st : Store σ)
    (v w : JSVal) (hv : isPlainObject v = false)
    (hw : isPlainObject w = true) (hwt : (getField w "type").isUndefined = true) :
    dispatch st v = (st, .error (.configuration .actionNotPlainObject)) ∧
    dispatch st w = (st, .error (.configuration .actionTypeUndefined)) := by
  constructor
  · unfold dispatch dispatchPrecheck
    simp [hv]
  · unfold dispatch dispatchPrecheck
    simp [hw, hwt]

/-- Witness for C3: a function value (not a plain object) and a plain object
with no `type` field, against the concrete counter store. -/
theorem c3_witness :
    dispatch exampleNatStore (JSVal.fn 0)
      = (exampleNatStore, .error (.configuration .actionNotPlainObject)) ∧
    dispatch exampleNatStore (JSVal.obj [objectProtoId] [])
      = (exampleNatStore, .error (.configuration .actionTypeUndefined)) :=
  c3_dispatch_rejects_invalid_actions exampleNatStore (JSVal.fn 0)
    (JSVal.obj [objectProtoId] []) rfl rfl rfl

/-- Claim C8 (amended statement is the original): calling `dispatch` from
inside the active reducer fails with an `InvariantViolation`, and calling
`getState` from inside the active reducer fails with an
`InvariantViolation`; the store comes out with `isDispatching` reset. -/
theorem c8_reentrancy_guard {σ : Type} (st : Store σ) (a a2 : JSVal)
    (f : σ → σ → JSVal → Except Nat σ)
    (hflag : st.isDispatching = false) (ha : validAction a)
    (ha2 : validAction a2) :
    dispatch { st with currentReducer := .callsGetState f } a
      = ({ st with currentReducer := .callsGetState f },
          .error (.invariant .getStateDuringDispatch)) ∧
    dispatch { st with currentReducer := .callsDispatch a2 } a
      = ({ st with currentReducer := .callsDispatch a2 },
          .error (.invariant .nestedDispatch)) := by
  obtain ⟨hap, hat⟩ := ha
  obtain ⟨ha2p, ha2t⟩ := ha2
  cases st
  constructor
  · simp_all [dispatch, dispatchPrecheck, runReducerBody, getState]
  · simp_all [dispatch, dispatchPrecheck, runReducerBody]

/-- Witness for C8: a reducer that calls `getState` and a reducer that
re-dispatches a valid action, both inside a dispatch on the counter store. -/
theorem c8_witness :
    dispatch { exampleNatStore with
        currentReducer := .callsGetState (fun v _ _ => .ok v) } (mkAction "A")
      = ({ exampleNatStore with
          currentReducer := .callsGetState (fun v _ _ => .ok v) },
          .error (.invariant .getStateDuringDispatch)) ∧
    dispatch { exampleNatStore with
        currentReducer := .callsDispatch (mkAction "B") } (mkAction "A")
      = ({ exampleNatStore with
          currentReducer := .callsDispatch (mkAction "B") },
          .error (.invariant .nestedDispatch)) :=
  c8_reentrancy_guard exampleNatStore (mkAction "A") (mkAction "B")
    (fun v _ _ => .ok v) rfl (by decide) (by decide)

/-- Claim C9: when the reducer throws during a dispatch, the exception
propagates to the caller, the stored state is unchanged (the resulting store
is the original one, with `isDispatching` reset to false by the `finally`
block), and an immediately subsequent `getState` or `dispatch` does not fail
with an `InvariantViolation`. -/
theorem c9_reducer_throw_cleanup {σ : Type} (st : Store σ)
    (f : σ → JSVal → Except Nat σ) (a a2 : JSVal) (code : Nat)
    (hflag : st.isDispatching = false) (hred : st.currentReducer = .pure f)
    (ha : validAction a) (ha2 : validAction a2)
    (hthrow : f st.currentState a = .error code) :
    dispatch st a = (st, .error (.thrown code)) ∧
    getState st = .ok st.currentState ∧
    dispatchPrecheck st a2 = none := by
  refine ⟨?_, ?_, dispatchPrecheck_valid st a2 hflag ha2⟩
  · obtain ⟨hap, hat⟩ := ha
    cases st
    simp_all [dispatch, dispatchPrecheck, runReducerBody]
  · simp [getState, hflag]

/-- Witness for C9: a reducer that always throws code 42, on the counter
store shape. -/
theorem c9_witness :
    dispatch { exampleNatStore with currentReducer := .pure (fun _ _ => .error 42) }
        (mkAction "A")
      = ({ exampleNatStore with currentReducer := .pure (fun _ _ => .error 42) },
          .error (.thrown 42)) ∧
    getState { exampleNatStore with currentReducer := .pure (fun _ _ => .error 42) }
      = .ok ({ exampleNatStore with
          currentReducer := .pure (fun _ _ => .error 42) } : Store Nat).currentState ∧
    dispatchPrecheck { exampleNatStore with
        currentReducer := .pure (fun _ _ => .error 42) } (mkAction "B") = none :=
  c9_reducer_throw_cleanup _ (fun _ _ => .error 42) (mkAction "A") (mkAction "B")
    42 rfl rfl (by decide) (by decide) rfl

/-- Claim C4, counterexample: with a callable `preloadedState`, an
`undefined` `enhancer`, and a callable trailing fourth argument, two of the
three enhancer-shaped slots are callable, yet the multiple-enhancers check
does not fire — construction shifts `preloadedState` into the enhancer slot
and delegates, with no `ConfigurationError` at all. -/
theorem c4_counterexample :
    jsTypeof (JSVal.fn 0) = "function" ∧ jsTypeof (JSVal.fn 1) = "function" ∧
    createStoreArgs (JSVal.fn 9) (JSVal.fn 0) JSVal.undefined (JSVal.fn 1)
      = .delegated (JSVal.fn 0) JSVal.undefined :=
  ⟨rfl, rfl, rfl⟩

/-- Claim C4, amended: construction fails with the multiple-enhancers
`ConfigurationError` exactly when the `enhancer` argument is callable and at
least one of `preloadedState` or the trailing fourth argument is also
callable; two callable arguments that do not include the `enhancer` slot do
not trigger it. -/
theorem c4_multiple_enhancers_amended (reducer p e a3 : JSVal) :
    createStoreArgs reducer p e a3
        = .failed (.configuration .multipleEnhancers)
      ↔ (jsTypeof e = "function"
          ∧ (jsTypeof p = "function" ∨ jsTypeof a3 = "function")) := by
  unfold createStoreArgs
  by_cases hp : jsTypeof p = "function" <;>
    by_cases he : jsTypeof e = "function" <;>
    by_cases ha : jsTypeof a3 = "function" <;>
    simp [hp, he, ha] <;>
    split_ifs <;>
    simp_all

/-- Witness for the amended C4, in both directions: enhancer plus trailing
argument callable fails, enhancer plus preloadedState callable fails. -/
theorem c4_amended_witness :
    createStoreArgs (JSVal.fn 9) JSVal.undefined (JSVal.fn 0) (JSVal.fn 1)
      = .failed (.configuration .multipleEnhancers) ∧
    createStoreArgs (JSVal.fn 9) (JSVal.fn 0) (JSVal.fn 1) JSVal.undefined
      = .failed (.configuration .multipleEnhancers) :=
  ⟨(c4_multiple_enhancers_amended (JSVal.fn 9) JSVal.undefined (JSVal.fn 0)
      (JSVal.fn 1)).mpr ⟨rfl, Or.inr rfl⟩,
    (c4_multiple_enhancers_amended (JSVal.fn 9) (JSVal.fn 0) (JSVal.fn 1)
      JSVal.undefined).mpr ⟨rfl, Or.inl rfl⟩⟩

/-- Claim C5: with a well-formed reducer mapping, when every sub-reducer
returns its previous slice value (by reference, modelled as equality in the
slice-value type), the combined reducer returns the original `state`
reference (the `hasChanged = false` branch); when any sub-reducer returns a
different reference, a freshly built composite object is returned (the
`hasChanged = true` branch). -/
theorem c5_no_change_returns_same_reference {V : Type} [DecidableEq V]
    (reducers : List (String × Option (SubReducer V)))
    (state : List (String × V)) (action : JSVal)
    (hshape : assertReducerShape (filterFinalReducers reducers) = none) :
    ((∀ kr ∈ filterFinalReducers reducers,
        ∃ v, sliceGet state kr.1 = some v ∧ kr.2 (some v) action = some v) →
      combineReducers reducers state action = .ok state ∧
      combinationHasChanged (filterFinalReducers reducers) state action
        = .ok false) ∧
    ((∀ kr ∈ filterFinalReducers reducers,
        (kr.2 (sliceGet state kr.1) action).isSome) →
     (∃ kr ∈ filterFinalReducers reducers,
        kr.2 (sliceGet state kr.1) action ≠ sliceGet state kr.1) →
      combineReducers reducers state action
        = .ok (freshComposite (filterFinalReducers reducers) state action) ∧
      combinationHasChanged (filterFinalReducers reducers) state action
        = .ok true) := by
  constructor
  · intro h
    have hdefined : ∀ kr ∈ filterFinalReducers reducers,
        (kr.2 (sliceGet state kr.1) action).isSome := by
      intro kr hkr
      obtain ⟨v, hs, hr⟩ := h kr hkr
      rw [hs, hr]
      rfl
    have hany : (filterFinalReducers reducers).any
        (fun kr => decide (kr.2 (sliceGet state kr.1) action
          ≠ sliceGet state kr.1)) = false := by
      rw [List.any_eq_false]
      intro kr hkr
      obtain ⟨v, hs, hr⟩ := h kr hkr
      simp [hs, hr]
    have hloop := combinationLoop_all_defined state action
      (filterFinalReducers reducers) false [] hdefined
    rw [hany] at hloop
    constructor
    · simp only [combineReducers, combination, hshape]
      rw [hloop]
      rfl
    · simp only [combinationHasChanged]
      rw [hloop]
      rfl
  · intro hdefined hex
    have hany : (filterFinalReducers reducers).any
        (fun kr => decide (kr.2 (sliceGet state kr.1) action
          ≠ sliceGet state kr.1)) = true := by
      rw [List.any_eq_true]
      obtain ⟨kr, hkr, hne⟩ := hex
      exact ⟨kr, hkr, by simpa using hne⟩
    have hloop := combinationLoop_all_defined state action
      (filterFinalReducers reducers) false [] hdefined
    rw [hany] at hloop
    constructor
    · simp only [combineReducers, combination, hshape]
      rw [hloop]
      rfl
    · simp only [combinationHasChanged]
      rw [hloop]
      rfl

/-- A sub-reducer for witnesses: initial state 1, otherwise the previous
slice value unchanged. -/
def exampleKeepA : SubReducer Nat := fun s _ =>
  match s with
  | none => some 1
  | some v => some v

/-- A sub-reducer for witnesses: initial state 2, otherwise the previous
slice value unchanged. -/
def exampleKeepB : SubReducer Nat := fun s _ =>
  match s with
  | none => some 2
  | some v => some v

/-- A sub-reducer for witnesses: initial state 1, otherwise increments the
previous slice value (always a new value). -/
def exampleBump : SubReducer Nat := fun s _ =>
  match s with
  | none => some 1
  | some v => some (v + 1)

/-- Witness for C5: `{a: keepA, b: keepB}` on `{a: 1, b: 2}` returns the
original state with `hasChanged = false`; swapping in a bumping reducer for
`a` returns the freshly built composite with `hasChanged = true`. -/
theorem c5_witness :
    (combineReducers [("a", some exampleKeepA), ("b", some exampleKeepB)]
        [("a", 1), ("b", 2)] (mkAction "X") = .ok [("a", 1), ("b", 2)] ∧
      combinationHasChanged
        (filterFinalReducers [("a", some exampleKeepA), ("b", some exampleKeepB)])
        [("a", 1), ("b", 2)] (mkAction "X") = .ok false) ∧
    (combineReducers [("a", some exampleBump), ("b", some exampleKeepB)]
        [("a", 1), ("b", 2)] (mkAction "X")
        = .ok (freshComposite
            (filterFinalReducers [("a", some exampleBump), ("b", some exampleKeepB)])
            [("a", 1), ("b", 2)] (mkAction "X")) ∧
      combinationHasChanged
        (filterFinalReducers [("a", some exampleBump), ("b", some exampleKeepB)])
        [("a", 1), ("b", 2)] (mkAction "X") = .ok true) := by
  constructor
  · exact (c5_no_change_returns_same_reference
      [("a", some exampleKeepA), ("b", some exampleKeepB)]
      [("a", 1), ("b", 2)] (mkAction "X") rfl).1
      (by
        intro kr hkr
        fin_cases hkr
        · exact ⟨1, rfl, rfl⟩
        · exact ⟨2, rfl, rfl⟩)
  · exact (c5_no_change_returns_same_reference
      [("a", some exampleBump), ("b", some exampleKeepB)]
      [("a", 1), ("b", 2)] (mkAction "X") rfl).2
      (by
        intro kr hkr
        fin_cases hkr
        · exact rfl
        · exact rfl)
      ⟨("a", exampleBump), by simp [filterFinalReducers], by decide⟩

/-- Claim C6: a sub-reducer returning `undefined` on the `INIT` probe or the
random probe makes `combineReducers` capture a `ShapeError` without throwing
at construction (the embedded try/catch makes construction total by
definition), and that captured error is raised on every invocation of the
combined reducer; a sub-reducer returning `undefined` during a live dispatch
instead raises a `StateError` immediately, naming the offending key. -/
theorem c6_shape_error_deferred_state_error_immediate {V : Type}
    [DecidableEq V] (reducers : List (String × Option (SubReducer V)))
    (state : List (String × V)) (action : JSVal) (e : Err) (k : String) :
    (assertReducerShape (filterFinalReducers reducers) = some e →
      combineReducers reducers state action = .error e) ∧
    (assertReducerShape (filterFinalReducers reducers) = none →
      firstUndefinedKey (filterFinalReducers reducers) state action = some k →
      combineReducers reducers state action = .error (.stateUndefined k)) := by
  constructor
  · intro h
    simp only [combineReducers, combination, h]
  · intro h hk
    simp only [combineReducers, combination, h]
    rw [combinationLoop_first_undefined state action
      (filterFinalReducers reducers) k false [] hk]

/-- A sub-reducer for witnesses that returns `undefined` for every input
(fails shape validation on the `INIT` probe). -/
def exampleAlwaysUndefined : SubReducer Nat := fun _ _ => none

/-- A sub-reducer for witnesses that passes shape validation but returns
`undefined` for the action type `"KILL"` on a defined slice. -/
def exampleLiveBad : SubReducer Nat := fun s a =>
  match getField a "type" with
  | .str t =>
    if t = "KILL" then none
    else match s with | none => some 5 | some v => some v
  | _ => match s with | none => some 5 | some v => some v

/-- Witness for C6: the always-undefined reducer makes every invocation
throw the captured `ShapeError` naming its key, while the live-bad reducer
throws `StateError` naming its key at the dispatch that triggered it. -/
theorem c6_witness :
    combineReducers [("bad", some exampleAlwaysUndefined)]
        ([] : List (String × Nat)) (mkAction "X")
      = .error (.shapeInit "bad") ∧
    combineReducers [("x", some exampleLiveBad)] [("x", 5)] (mkAction "KILL")
      = .error (.stateUndefined "x") :=
  ⟨(c6_shape_error_deferred_state_error_immediate
      [("bad", some exampleAlwaysUndefined)] [] (mkAction "X")
      (.shapeInit "bad") "bad").1 rfl,
    (c6_shape_error_deferred_state_error_immediate
      [("x", some exampleLiveBad)] [("x", 5)] (mkAction "KILL")
      (.shapeInit "bad") "x").2 rfl rfl⟩

/-- Claim C7: middleware ordering.  For a middleware list `[A, B, C]` the
pipeline's dispatch is `A`'s stage outermost, whose `next` is `B`'s stage,
whose `next` is `C`'s stage, whose `next` is the underlying store dispatch;
concretely, two tagging pass-through middlewares record their tags in the
order `["mw1", "mw2"]` when a dispatch completes. -/
theorem c7_middleware_order :
    (∀ (α δ : Type) (api : α) (mwA mwB mwC : α → δ → δ) (base : δ),
      applyMiddlewareChain api [mwA, mwB, mwC] base
        = mwA api (mwB api (mwC api base))) ∧
    (∀ (α : Type) (api : α),
      applyMiddlewareChain api [tagMiddleware "mw1", tagMiddleware "mw2"]
        (fun order => order) [] = ["mw1", "mw2"]) := by
  constructor
  · intro α δ api mwA mwB mwC base
    rfl
  · intro α api
    rfl

/-- Claim C10: when any slice changes, the composite object returned by the
combined reducer has exactly the keys of the filtered reducer mapping, so
keys present in the incoming state but absent from the mapping are dropped;
when no slice changes, the original state is returned and such extra keys
survive. -/
theorem c10_unknown_keys_depend_on_change {V : Type} [DecidableEq V]
    (reducers : List (String × Option (SubReducer V)))
    (state : List (String × V)) (action : JSVal)
    (hshape : assertReducerShape (filterFinalReducers reducers) = none)
    (hdefined : ∀ kr ∈ filterFinalReducers reducers,
      (kr.2 (sliceGet state kr.1) action).isSome) :
    (combinationHasChanged (filterFinalReducers reducers) state action
        = .ok true →
      combineReducers reducers state action
        = .ok (freshComposite (filterFinalReducers reducers) state action) ∧
      (freshComposite (filterFinalReducers reducers) state action).map Prod.fst
        = (filterFinalReducers reducers).map Prod.fst) ∧
    (combinationHasChanged (filterFinalReducers reducers) state action
        = .ok false →
      combineReducers reducers state action = .ok state) := by
  have hloop := combinationLoop_all_defined state action
    (filterFinalReducers reducers) false [] hdefined
  have hchanged : combinationHasChanged (filterFinalReducers reducers)
      state action
      = .ok ((filterFinalReducers reducers).any
          (fun kr => decide (kr.2 (sliceGet state kr.1) action
            ≠ sliceGet state kr.1))) := by
    simp only [combinationHasChanged]
    rw [hloop]
    rfl
  constructor
  · intro htrue
    have hany : (filterFinalReducers reducers).any
        (fun kr => decide (kr.2 (sliceGet state kr.1) action
          ≠ sliceGet state kr.1)) = true := by
      rw [hchanged] at htrue
      simpa using htrue
    refine ⟨?_, freshComposite_keys state action _ hdefined⟩
    simp only [combineReducers, combination, hshape]
    rw [hloop, hany]
    rfl
  · intro hfalse
    have hany : (filterFinalReducers reducers).any
        (fun kr => decide (kr.2 (sliceGet state kr.1) action
          ≠ sliceGet state kr.1)) = false := by
      rw [hchanged] at hfalse
      simpa using hfalse
    simp only [combineReducers, combination, hshape]
    rw [hloop, hany]
    rfl

/-- Witness for C10: a bumping reducer for `a` with an extra key `zzz` in
the state — after a changing dispatch the result has exactly the mapping's
keys (the extra key is dropped); a keeping mapping leaves the state, extra
key included. -/
theorem c10_witness :
    (combineReducers [("a", some exampleBump)] [("a", 1), ("zzz", 9)]
          (mkAction "X")
        = .ok (freshComposite (filterFinalReducers [("a", some exampleBump)])
            [("a", 1), ("zzz", 9)] (mkAction "X")) ∧
      (freshComposite (filterFinalReducers [("a", some exampleBump)])
          [("a", 1), ("zzz", 9)] (mkAction "X")).map Prod.fst
        = (filterFinalReducers [("a", some exampleBump)]).map Prod.fst) ∧
    combineReducers [("a", some exampleKeepA)] [("a", 1), ("zzz", 9)]
        (mkAction "X")
      = .ok [("a", 1), ("zzz", 9)] := by
  constructor
  · exact (c10_unknown_keys_depend_on_change [("a", some exampleBump)]
      [("a", 1), ("zzz", 9)] (mkAction "X") rfl
      (by intro kr hkr; fin_cases hkr; exact rfl)).1 rfl
  · exact (c10_unknown_keys_depend_on_change [("a", some exampleKeepA)]
      [("a", 1), ("zzz", 9)] (mkAction "X") rfl
      (by intro kr hkr; fin_cases hkr; exact rfl)).2 rfl

end Redux
